import Mathlib

/-!
Verification of the `useCondition` fluent conditional-rendering chain
(`src/index.ts`).

The hook builds, through chained calls, an ordered list of condition
records (`conditions.current : ConditionCase[]`) plus match-mode metadata
(`meta.current : ConditionMeta`), and resolves them with `otherwise`.

Shallow embedding conventions:
* JavaScript runtime values that flow into conditions, match subjects and
  case values are modelled by the inductive `JSVal` (with `null`,
  `undefined`, booleans, numbers, `NaN` and strings) together with their
  JavaScript truthiness and strict equality (`===`).
* The React payload (`component : React.ReactNode | null`) is modelled as
  `Option α` for an opaque payload type `α`; `none` models `null`, which
  is also the initial "no payload attached" value of every record.
* Comparators may throw: a comparator is a total Lean function returning
  `Except String JSVal` where `.error` models a thrown exception and the
  returned `JSVal` models the (possibly non-boolean) return value.
* Console diagnostics are modelled by the structured inductive `Diag`;
  each operation returns the list of diagnostics it emits alongside the
  updated state, so the state itself matches the mutable data the hook
  owns (`conditions.current`, `meta.current`) plus the module-global
  `conditionIdCounter`.
* Mutation of the record array is modelled functionally; a separate
  heap-indexed model (`HeapState`) near the end makes the JavaScript
  reference sharing of `getConditions`'s shallow-frozen snapshot explicit.
-/

namespace UseCondition

/-- JavaScript runtime values relevant to the hook: condition inputs,
match subjects and case values. `num` carries integers (enough to witness
every behaviour the claims mention); `nan` is the floating-point NaN,
kept as its own constructor because the code special-cases it. -/
inductive JSVal where
  | null
  | undef
  | bool (b : Bool)
  | num (n : Int)
  | nan
  | str (s : String)
  deriving DecidableEq

/-- JavaScript truthiness (`Boolean(v)`): `null`, `undefined`, `false`,
`0`, `NaN` and `""` are falsy, everything else truthy. -/
def truthy : JSVal → Bool
  | .null => false
  | .undef => false
  | .bool b => b
  | .num n => n != 0
  | .nan => false
  | .str s => s != ""

/-- JavaScript strict equality `===` on the modelled values: values of
different runtime types are unequal, `NaN === x` is `false` for every `x`
(including `NaN` itself). -/
def strictEq : JSVal → JSVal → Bool
  | .null, .null => true
  | .undef, .undef => true
  | .bool a, .bool b => a == b
  | .num a, .num b => a == b
  | .str a, .str b => a == b
  | _, _ => false

/-- Source: `Number.isNaN`. -/
def isNaNv : JSVal → Bool
  | .nan => true
  | _ => false

/-- Test `typeof v === "boolean"`, used by `when` to decide whether to warn. -/
def isBoolVal : JSVal → Bool
  | .bool _ => true
  | _ => false

/-- Source: `defaultComparator` (src/index.ts lines 226-232) — if both
arguments are NaN return true, else strict equality. -/
def defaultComparator (value matchValue : JSVal) : Bool :=
  if isNaNv value && isNaNv matchValue then true
  else strictEq value matchValue

/-- A user comparator `(value, matchValue) => ...`: it may throw
(`.error` with the thrown message) or return an arbitrary JavaScript
value (`.ok`), not necessarily a boolean. -/
def MatchComparator : Type := JSVal → JSVal → Except String JSVal

/-- The default comparator wrapped as a `MatchComparator`: it never
throws and returns an actual boolean. -/
def defaultComparatorFn : MatchComparator :=
  fun value matchValue => .ok (.bool (defaultComparator value matchValue))

/-- The `type` field of a `ConditionCase`: `"when" | "match" | "fallback"`. -/
inductive ConditionType where
  | whenT
  | matchT
  | fallbackT
  deriving DecidableEq

/-- The string the source stores in the `type` field, used in warning
messages such as `... but found 'match'`. -/
def ConditionType.toStr : ConditionType → String
  | .whenT => "when"
  | .matchT => "match"
  | .fallbackT => "fallback"

/-- Source: `ConditionCase` (src/index.ts lines 6-17). `condition` is an
optional field (`condition?: boolean`); reading an absent field yields
`undefined`, so we store the `JSVal` directly with `.undef` for records
that never set it (fallback records). `case` stores the comparator's raw
return value here, so the field can hold a non-boolean. `component` is
`React.ReactNode | null`, modelled as `Option α` with `none` for `null`. -/
structure ConditionCase (α : Type) where
  type : ConditionType
  condition : JSVal
  matchValue : JSVal
  component : Option α
  id : String
  deriving DecidableEq

/-- Source: `ConditionMeta` (src/index.ts lines 30-39). -/
structure ConditionMeta where
  matchedIndex : Int
  value : JSVal
  comparator : MatchComparator
  isInMatchMode : Bool

/-- The initial metadata (src/index.ts lines 417-422 and 427-432):
`matchedIndex = -1`, `value = null`, the default comparator, match mode
closed. -/
def initMeta : ConditionMeta :=
  { matchedIndex := -1
    value := .null
    comparator := defaultComparatorFn
    isInMatchMode := false }

/-- The mutable data one hook instance owns: `conditions.current`,
`meta.current`, plus the module-global `conditionIdCounter`
(src/index.ts line 234), which `reset` does not touch. -/
structure ChainState (α : Type) where
  conditions : List (ConditionCase α)
  meta : ConditionMeta
  counter : Nat

/-- The state of a freshly instantiated handle when the global id counter
stands at `n`. -/
def initState (α : Type) (n : Nat) : ChainState α :=
  { conditions := [], meta := initMeta, counter := n }

/-- Structured console diagnostics.  Each constructor corresponds to one
`console.warn` / `console.error` / `console.log`-group call site of the
source, with its variable parts as arguments. -/
inductive Diag where
  /-- Warning `when() expects a boolean value. ...` -/
  | warnNonBooleanWhen
  /-- Warning `<op> called without a preceding condition. ...` -/
  | warnNoPreceding (operation : String)
  /-- Warning `<op> should follow ... but found <type>.` -/
  | warnWrongPreceding (operation : String) (found : String)
  /-- Warning `Multiple then() calls detected. Only the last one will be used.` -/
  | warnMultipleThen
  /-- Warning `Multiple render() calls detected. Only the last one will be used.` -/
  | warnMultipleRender
  /-- Warning `Multiple match() calls detected. Previous match context will be overridden.` -/
  | warnMultipleMatch
  /-- Warning `comparator must be a function. Using default comparator.` -/
  | warnNonCallableComparator
  /-- Warning `case() called without match(). ...` -/
  | warnCaseWithoutMatch
  /-- Warning `Multiple fallback() calls detected. Only the last one will be used.` -/
  | warnMultipleFallback
  /-- Warning `Found <n> incomplete condition(s). These will be ignored.` -/
  | warnIncomplete (count : Nat)
  /-- Error `Comparator function threw an error: ...` -/
  | errorComparatorThrew
  /-- the grouped `Debug Info` dump -/
  | debugDump
  deriving DecidableEq

/-- The console severity of each diagnostic. -/
def Diag.level : Diag → String
  | .errorComparatorThrew => "error"
  | .debugDump => "log"
  | _ => "warn"

/-- Source: `reset` (src/index.ts lines 425-434) — empties the condition
list and restores the initial metadata; the module-global id counter is
not touched and no diagnostics are emitted. -/
def reset (s : ChainState α) : ChainState α × List Diag :=
  ({ conditions := [], meta := initMeta, counter := s.counter }, [])

/-- Source: `validateChaining` (src/index.ts lines 437-465). Checks the
last condition record against the expected predecessor kind and returns
whether the chained call may proceed, together with the warning emitted
when it may not. -/
def validateChaining (s : ChainState α) (expectedPrevious : String)
    (operation : String) : Bool × List Diag :=
  match s.conditions.getLast? with
  | none => (false, [.warnNoPreceding operation])
  | some lastCondition =>
    if expectedPrevious == "when" && lastCondition.type != .whenT then
      (false, [.warnWrongPreceding operation lastCondition.type.toStr])
    else if expectedPrevious == "case" && lastCondition.type != .matchT then
      (false, [.warnWrongPreceding operation lastCondition.type.toStr])
    else
      (true, [])

/-- Source: `when` (src/index.ts lines 469-490). Warns on a non-boolean
argument, then appends a `when`-kind record whose `condition` is
`Boolean(condition)` and whose component is `null`, with a fresh id from
the global counter.  (`Boolean()` cannot throw, so the `try`/`catch`
around the push never fires.) -/
def when (s : ChainState α) (condition : JSVal) : ChainState α × List Diag :=
  let warns : List Diag := if isBoolVal condition then [] else [.warnNonBooleanWhen]
  let n := s.counter + 1
  ({ s with
      conditions := s.conditions ++
        [{ type := .whenT
           condition := .bool (truthy condition)
           matchValue := .undef
           component := none
           id := "when-" ++ toString n }]
      counter := n },
   warns)

/-- Source: `then` (src/index.ts lines 492-507). If `validateChaining`
fails the state is returned unchanged; otherwise the last record's
component is overwritten, with an extra warning when it was already
non-null. -/
def thenOp (s : ChainState α) (component : Option α) : ChainState α × List Diag :=
  let v := validateChaining s "when" "then()"
  if v.1 = false then (s, v.2)
  else
    match s.conditions.getLast? with
    | none => (s, v.2)
    | some lastCondition =>
      let extra : List Diag :=
        if lastCondition.component.isSome then [.warnMultipleThen] else []
      ({ s with
          conditions := s.conditions.dropLast ++
            [{ lastCondition with component := component }] },
       v.2 ++ extra)

/-- Source: `match` (src/index.ts lines 509-527). Warns when a match
context is already open; stores subject and comparator in the metadata
and marks match mode open; appends no record.  The optional comparator
argument models the default parameter (`none` = not supplied, so the
default comparator is used; a supplied Lean value is always callable, so
the `typeof comparator !== "function"` branch is vacuous here). -/
def matchOp (s : ChainState α) (value : JSVal)
    (comparator : Option MatchComparator) : ChainState α × List Diag :=
  let warns : List Diag := if s.meta.isInMatchMode then [.warnMultipleMatch] else []
  let comp := comparator.getD defaultComparatorFn
  ({ s with
      meta := { s.meta with value := value, comparator := comp, isInMatchMode := true } },
   warns)

/-- Source: `case` (src/index.ts lines 529-566). Without an open match
context it warns and appends nothing.  Otherwise the active comparator is
applied to the stored subject and this call's value; a thrown error is
caught, logged at error level, and replaced by `false`; the (raw, not
boolean-converted) outcome is stored in the appended `match`-kind
record's `condition` field, with the component `null`. -/
def caseOp (s : ChainState α) (matchValue : JSVal) : ChainState α × List Diag :=
  if s.meta.isInMatchMode = false then
    (s, [.warnCaseWithoutMatch])
  else
    let outcome := s.meta.comparator s.meta.value matchValue
    let condition : JSVal := match outcome with
      | .ok r => r
      | .error _ => .bool false
    let errs : List Diag := match outcome with
      | .ok _ => []
      | .error _ => [.errorComparatorThrew]
    let n := s.counter + 1
    ({ s with
        conditions := s.conditions ++
          [{ type := .matchT
             condition := condition
             matchValue := matchValue
             component := none
             id := "case-" ++ toString n }]
        counter := n },
     errs)

/-- Source: `render` (src/index.ts lines 568-583). Same shape as `then`
but requires the last record to be of `match` kind. -/
def render (s : ChainState α) (component : Option α) : ChainState α × List Diag :=
  let v := validateChaining s "case" "render()"
  if v.1 = false then (s, v.2)
  else
    match s.conditions.getLast? with
    | none => (s, v.2)
    | some lastCondition =>
      let extra : List Diag :=
        if lastCondition.component.isSome then [.warnMultipleRender] else []
      ({ s with
          conditions := s.conditions.dropLast ++
            [{ lastCondition with component := component }] },
       v.2 ++ extra)

/-- Overwrite the `component` field of the record at position `i`,
leaving everything else in place — the functional rendering of the
source's in-place mutation `existingFallback.component = component`. -/
def setComponentAt : List (ConditionCase α) → Nat → Option α → List (ConditionCase α)
  | [], _, _ => []
  | c :: rest, 0, p => { c with component := p } :: rest
  | c :: rest, i + 1, p => c :: setComponentAt rest i p

/-- Source: `fallback` (src/index.ts lines 585-603). If a fallback-kind
record already exists (the source's `find`, i.e. the first one), warn and
overwrite its component in place; otherwise append a new fallback record
with a fresh id. -/
def fallback (s : ChainState α) (component : Option α) : ChainState α × List Diag :=
  match s.conditions.findIdx? (fun c => c.type == .fallbackT) with
  | some i =>
    ({ s with conditions := setComponentAt s.conditions i component },
     [.warnMultipleFallback])
  | none =>
    let n := s.counter + 1
    ({ s with
        conditions := s.conditions ++
          [{ type := .fallbackT
             condition := .undef
             matchValue := .undef
             component := component
             id := "fallback-" ++ toString n }]
        counter := n },
     [])

/-- Source: `debug` (src/index.ts lines 605-612). Pure logging; the state
is unchanged. -/
def debug (s : ChainState α) : ChainState α × List Diag :=
  (s, [.debugDump])

/-- Source: `getMatchedIndex` (src/index.ts lines 616-618). -/
def getMatchedIndex (s : ChainState α) : Int :=
  s.meta.matchedIndex

/-- Source: `hasMatched` (src/index.ts lines 620-622). -/
def hasMatched (s : ChainState α) : Bool :=
  s.meta.matchedIndex != -1

/-- Source: `getConditions` (src/index.ts lines 624-626),
`Object.freeze([...conditions.current])`, seen through the pure value
semantics: the snapshot holds the same records in the same order.  The
reference-sharing aspect of the snapshot is modelled separately by
`HeapState` below. -/
def getConditions (s : ChainState α) : List (ConditionCase α) :=
  s.conditions

/-- The filter the resolver applies when counting incomplete records
(src/index.ts lines 634-637): a `when`/`match`-kind record whose
component is still `null`. -/
def isIncomplete (c : ConditionCase α) : Bool :=
  (c.type == .whenT || c.type == .matchT) && c.component.isNone

/-- The guard of the resolver's scan loop (src/index.ts lines 649-655):
a `when`/`match`-kind record whose stored `condition` is truthy and whose
component is not `null`. -/
def isSelectable (c : ConditionCase α) : Bool :=
  (c.type == .whenT || c.type == .matchT) && truthy c.condition && c.component.isSome

/-- The resolver's `for` loop (src/index.ts lines 646-659): first record
passing `isSelectable`, returned with its (relative) position and its
component. -/
def scanFirst : List (ConditionCase α) → Option (Nat × Option α)
  | [] => none
  | c :: rest =>
    if isSelectable c then some (0, c.component)
    else (scanFirst rest).map (fun ip => (ip.1 + 1, ip.2))

/-- Source: `otherwise` (src/index.ts lines 628-677). Resets
`matchedIndex` to `-1`, warns once when incomplete records exist, returns
the first selectable record's component (recording its index), else the
fallback record's component when that is non-null, else the supplied
default (`null` when not supplied).  Nothing in the loop can throw, so
the surrounding `try`/`catch` never fires.  Returns (new state, returned
node, diagnostics). -/
def otherwise (s : ChainState α) (defaultComponent : Option α) :
    ChainState α × Option α × List Diag :=
  let incompleteCount := (s.conditions.filter isIncomplete).length
  let warns : List Diag :=
    if incompleteCount > 0 then [.warnIncomplete incompleteCount] else []
  match scanFirst s.conditions with
  | some (i, comp) =>
    ({ s with meta := { s.meta with matchedIndex := (i : Int) } }, comp, warns)
  | none =>
    let s1 := { s with meta := { s.meta with matchedIndex := -1 } }
    match s.conditions.find? (fun c => c.type == .fallbackT) with
    | some fb =>
      if fb.component.isSome then (s1, fb.component, warns)
      else (s1, defaultComponent, warns)
    | none => (s1, defaultComponent, warns)

/-- One call of the fluent API, with its argument. -/
inductive Op (α : Type) where
  | when (condition : JSVal)
  | thenOp (component : Option α)
  | matchOp (value : JSVal) (comparator : Option MatchComparator)
  | caseOp (matchValue : JSVal)
  | render (component : Option α)
  | fallback (component : Option α)
  | debug
  | reset
  | otherwise (defaultComponent : Option α)

/-- Execute one API call: next state, the returned node when the call was
`otherwise`, and the diagnostics emitted. -/
def step (s : ChainState α) : Op α → ChainState α × Option (Option α) × List Diag
  | .when c => let r := when s c; (r.1, none, r.2)
  | .thenOp p => let r := thenOp s p; (r.1, none, r.2)
  | .matchOp v comp => let r := matchOp s v comp; (r.1, none, r.2)
  | .caseOp v => let r := caseOp s v; (r.1, none, r.2)
  | .render p => let r := render s p; (r.1, none, r.2)
  | .fallback p => let r := fallback s p; (r.1, none, r.2)
  | .debug => let r := debug s; (r.1, none, r.2)
  | .reset => let r := reset s; (r.1, none, r.2)
  | .otherwise d => let r := otherwise s d; (r.1, some r.2.1, r.2.2)

/-- Execute a sequence of API calls, collecting every `otherwise` result
and every diagnostic in order. -/
def runOps (s : ChainState α) : List (Op α) → ChainState α × List (Option α) × List Diag
  | [] => (s, [], [])
  | op :: ops =>
    let r := step s op
    let rest := runOps r.1 ops
    (rest.1,
     (match r.2.1 with
      | some out => out :: rest.2.1
      | none => rest.2.1),
     r.2.2 ++ rest.2.2)

/-- The chain states reachable from a fresh handle through API calls. -/
inductive Reachable : ChainState α → Prop where
  | init (n : Nat) : Reachable (initState α n)
  | step (s : ChainState α) (op : Op α) : Reachable s → Reachable (step s op).1

/-!
### Heap-indexed model for the `getConditions` snapshot

`getConditions` returns `Object.freeze([...conditions.current])`: the
*array* is a fresh frozen copy, but its entries are the very record
objects the hook stores internally.  To reason about mutation through the
snapshot we need JavaScript's reference semantics, so here records live
in a heap and `conditions.current` holds references (heap addresses).
All builder operations allocate fresh records, so addresses are issued
consecutively; `HeapState.heap` maps each address to its record.
-/

/-- A chain state with the record objects held in a heap: `conds` is the
internal array of references, `heap[a]` the record object at address `a`. -/
structure HeapState (α : Type) where
  heap : List (ConditionCase α)
  conds : List Nat
  meta : ConditionMeta
  counter : Nat

/-- A fresh handle in the heap model. -/
def hInit (α : Type) (n : Nat) : HeapState α :=
  { heap := [], conds := [], meta := initMeta, counter := n }

/-- Read the internal record array through the heap: the pure-value view
of the state, on which the pure operations above act. -/
def HeapState.abs (s : HeapState α) : ChainState α :=
  { conditions := s.conds.filterMap (fun a => s.heap.get? a)
    meta := s.meta
    counter := s.counter }

/-- Operation `when` in the heap model: allocate the new record object at a fresh
address and push the reference. -/
def hWhen (s : HeapState α) (condition : JSVal) : HeapState α :=
  let n := s.counter + 1
  { s with
      heap := s.heap ++
        [{ type := .whenT
           condition := .bool (truthy condition)
           matchValue := .undef
           component := none
           id := "when-" ++ toString n }]
      conds := s.conds ++ [s.heap.length]
      counter := n }

/-- The value `getConditions` hands to the caller in the heap model:
`Object.freeze([...conditions.current])` — a *new* array (so the caller
mutates a copy, never the internal array), frozen (so element assignment
and push/pop on it are rejected), whose entries are the same references
as the internal array's. -/
structure Snapshot where
  frozen : Bool
  entries : List Nat

/-- Source: `getConditions` (src/index.ts lines 624-626), heap view. -/
def hGetConditions (s : HeapState α) : Snapshot :=
  { frozen := true, entries := s.conds }

/-- The caller writes `record.component = p` through a reference obtained
from the snapshot: `Object.freeze` is shallow, so the record object
itself is not frozen and the heap cell changes. -/
def writeComponent (s : HeapState α) (a : Nat) (p : Option α) : HeapState α :=
  { s with heap := setComponentAt s.heap a p }

/-! ### Claim C8 — default comparator: NaN equals NaN, otherwise strict equality -/

/-- C8: the default comparator treats NaN as equal to NaN and otherwise
uses strict equality: `match(NaN).case(NaN).render(A).otherwise()`
returns `A`, and in general `defaultComparator v m` is true exactly when
both arguments are NaN or the arguments are strictly equal. -/
theorem default_comparator_nan_strict (α : Type) (A : α) :
    (otherwise (render (caseOp (matchOp (initState α 0) .nan none).1 .nan).1
        (some A)).1 none).2.1 = some A ∧
    (∀ v m : JSVal,
      defaultComparator v m = true ↔ ((v = .nan ∧ m = .nan) ∨ strictEq v m = true)) := by
  refine ⟨rfl, ?_⟩
  intro v m
  cases v <;> cases m <;> simp [defaultComparator, isNaNv, strictEq]

/-! ### Claim C2 — the unset-payload sentinel is `null` itself -/

/-- C2 counterexample: after `when(true).then(null)` the branch is
reported as incomplete (count 1) and `otherwise()` does not select it
(`matchedIndex` stays `-1` and the caller default `null` is returned) —
so a null payload attached via `then` does *not* count as a supplied
payload, contradicting the claim. -/
theorem then_null_counterexample :
    ((thenOp (when (initState Nat 0) (.bool true)).1 none).1.conditions.filter
        isIncomplete).length = 1 ∧
    (otherwise (thenOp (when (initState Nat 0) (.bool true)).1 none).1
        none).1.meta.matchedIndex = -1 ∧
    (otherwise (thenOp (when (initState Nat 0) (.bool true)).1 none).1
        none).2.1 = none :=
  ⟨rfl, rfl, rfl⟩

/-- C2 (amended): the unset sentinel is `null` itself, so attaching a
null payload is indistinguishable from attaching none: `then`/`render`
store exactly the supplied payload in the most recent record, and that
record counts as incomplete precisely when the stored payload is null,
and is selectable by `otherwise` precisely when its condition is truthy
and the stored payload is not null. -/
theorem payload_null_is_unset (s : ChainState α) (p : Option α) (c : ConditionCase α)
    (h : s.conditions.getLast? = some c) :
    (c.type = .whenT →
      (thenOp s p).1.conditions.getLast? = some { c with component := p }) ∧
    (c.type = .matchT →
      (render s p).1.conditions.getLast? = some { c with component := p }) ∧
    ((c.type = .whenT ∨ c.type = .matchT) →
      isIncomplete { c with component := p } = p.isNone ∧
      isSelectable { c with component := p } = (truthy c.condition && p.isSome)) := by
  refine ⟨?_, ?_, ?_⟩
  · intro ht
    simp only [thenOp, validateChaining, h, ht]
    simp [List.getLast?_concat]
  · intro ht
    simp only [render, validateChaining, h, ht]
    simp [List.getLast?_concat]
  · rintro (ht | ht) <;>
      simp [isIncomplete, isSelectable, ht]

/-- Concrete chain used to witness `payload_null_is_unset`. -/
def c2st : ChainState Nat := (when (initState Nat 0) (.bool true)).1

/-- The record `when(true)` appends with the global counter at 0. -/
def c2rec : ConditionCase Nat :=
  { type := .whenT, condition := .bool true, matchValue := .undef,
    component := none, id := "when-1" }

/-- Witness for `payload_null_is_unset` at a concrete chain. -/
theorem payload_null_is_unset_witness :
    (c2rec.type = .whenT →
      (thenOp c2st (some 5)).1.conditions.getLast? =
        some { c2rec with component := some 5 }) ∧
    (c2rec.type = .matchT →
      (render c2st (some 5)).1.conditions.getLast? =
        some { c2rec with component := some 5 }) ∧
    ((c2rec.type = .whenT ∨ c2rec.type = .matchT) →
      isIncomplete { c2rec with component := some 5 } = (some 5 : Option Nat).isNone ∧
      isSelectable { c2rec with component := some 5 } =
        (truthy c2rec.condition && (some 5 : Option Nat).isSome)) :=
  payload_null_is_unset c2st (some 5) c2rec rfl

/-! ### Claim C3 — the `getConditions` snapshot is only shallowly protected -/

/-- C3 counterexample: on the chain `when(true)`, mutating the first
entry of the `getConditions()` snapshot (writing its `component` field
through the shared reference) changes the result of a subsequent
`otherwise()` call from `null` to the written payload — so not every
mutation of the returned value is harmless. -/
theorem snapshot_entry_mutation_counterexample :
    (otherwise (writeComponent (hWhen (hInit Nat 0) (.bool true))
        ((hGetConditions (hWhen (hInit Nat 0) (.bool true))).entries.headD 0)
        (some 7)).abs none).2.1 = some 7 ∧
    (otherwise (hWhen (hInit Nat 0) (.bool true)).abs none).2.1 = none :=
  ⟨rfl, rfl⟩

/-- C3 (amended): `getConditions` returns a *frozen shallow copy*: the
returned array itself is frozen, so mutating the sequence (element
assignment, push/pop) is rejected and cannot change internal state; but
its entries are the very record references the hook stores internally,
so mutating an entry's fields does change internal chain state and hence
subsequent `otherwise()` results. -/
theorem getConditions_shallow_frozen (s : HeapState α) :
    (hGetConditions s).frozen = true ∧ (hGetConditions s).entries = s.conds :=
  ⟨rfl, rfl⟩

/-! ### Claim C4 — a throwing comparator inside `case` is contained -/

/-- C4: when the active comparator throws on `(subject, v)`, `case(v)`
catches the exception, logs one error-level diagnostic, still appends a
`match`-kind record with `satisfied = false` and the payload unset, and
returns normally with everything else in the state unchanged. -/
theorem case_throw_caught (s : ChainState α) (mv : JSVal) (msg : String)
    (hm : s.meta.isInMatchMode = true)
    (hthrow : s.meta.comparator s.meta.value mv = .error msg) :
    caseOp s mv =
      ({ s with
          conditions := s.conditions ++
            [{ type := .matchT, condition := .bool false, matchValue := mv,
               component := none, id := "case-" ++ toString (s.counter + 1) }]
          counter := s.counter + 1 },
       [.errorComparatorThrew]) := by
  simp only [caseOp, hm, hthrow]
  rfl

/-- A comparator that always throws. -/
def c4comp : MatchComparator := fun _ _ => .error "comparator failure"

/-- A chain with an open match context whose comparator always throws. -/
def sC4 : ChainState Nat := (matchOp (initState Nat 0) (.num 1) (some c4comp)).1

/-- Witness for `case_throw_caught` at a concrete throwing comparator. -/
theorem case_throw_caught_witness :
    caseOp sC4 (.num 2) =
      ({ sC4 with
          conditions := sC4.conditions ++
            [{ type := .matchT, condition := .bool false, matchValue := .num 2,
               component := none, id := "case-" ++ toString (sC4.counter + 1) }]
          counter := sC4.counter + 1 },
       [.errorComparatorThrew]) :=
  case_throw_caught sC4 (.num 2) "comparator failure" rfl rfl

/-! ### Claim C5 — `then`/`render` validate their predecessor atomically -/

/-- C5: `then(p)` is atomic with respect to misuse: with an empty branch
sequence, or a most recent record that is not of `when` kind, it emits
one warning and leaves the chain state entirely unchanged; otherwise it
overwrites the most recent record's payload with `p`, preceded by a
"multiple then — last wins" warning exactly when a payload was already
set; and `render(p)` obeys the same contract with `match`-kind records. -/
theorem then_render_atomic (s : ChainState α) (p : Option α) :
    (s.conditions = [] →
      thenOp s p = (s, [.warnNoPreceding "then()"]) ∧
      render s p = (s, [.warnNoPreceding "render()"])) ∧
    (∀ c, s.conditions.getLast? = some c →
      (c.type ≠ .whenT →
        thenOp s p = (s, [.warnWrongPreceding "then()" c.type.toStr])) ∧
      (c.type = .whenT →
        thenOp s p =
          ({ s with conditions := s.conditions.dropLast ++ [{ c with component := p }] },
           if c.component.isSome then [.warnMultipleThen] else [])) ∧
      (c.type ≠ .matchT →
        render s p = (s, [.warnWrongPreceding "render()" c.type.toStr])) ∧
      (c.type = .matchT →
        render s p =
          ({ s with conditions := s.conditions.dropLast ++ [{ c with component := p }] },
           if c.component.isSome then [.warnMultipleRender] else []))) := by
  constructor
  · intro he
    have h0 : s.conditions.getLast? = none := by simp [he]
    constructor <;> simp [thenOp, render, validateChaining, h0]
  · intro c h
    refine ⟨?_, ?_, ?_, ?_⟩
    · intro ht
      have ht' : (c.type != ConditionType.whenT) = true := by
        simp [bne_iff_ne, ht]
      simp [thenOp, validateChaining, h, ht']
    · intro ht
      simp [thenOp, validateChaining, h, ht]
    · intro ht
      have ht' : (c.type != ConditionType.matchT) = true := by
        simp [bne_iff_ne, ht]
      simp [render, validateChaining, h, ht']
    · intro ht
      simp [render, validateChaining, h, ht]

/-- Witness for `then_render_atomic`: on a fresh (empty) chain both
`then` and `render` warn and change nothing. -/
theorem then_render_atomic_witness :
    thenOp (initState Nat 0) (some 5) = (initState Nat 0, [.warnNoPreceding "then()"]) ∧
    render (initState Nat 0) (some 5) = (initState Nat 0, [.warnNoPreceding "render()"]) :=
  (then_render_atomic (initState Nat 0) (some 5)).1 rfl

/-! ### Claim C10 — `case` stores the raw comparator result, `when` coerces -/

/-- C10: `case(v)` stores the comparator's return value raw (no boolean
conversion), `when(c)` stores `Boolean(c)` at record-creation time, and
`otherwise` tests the stored value by truthiness: a single-record chain
holding a `match`-kind record with stored condition `r` and a set payload
is selected exactly when `r` is truthy. -/
theorem case_raw_when_coerced (s : ChainState α) (mv c r : JSVal) (p : α)
    (hm : s.meta.isInMatchMode = true)
    (hr : s.meta.comparator s.meta.value mv = .ok r) :
    ((caseOp s mv).1.conditions.getLast? =
       some { type := .matchT, condition := r, matchValue := mv, component := none,
              id := "case-" ++ toString (s.counter + 1) }) ∧
    ((when s c).1.conditions.getLast? =
       some { type := .whenT, condition := .bool (truthy c), matchValue := .undef,
              component := none, id := "when-" ++ toString (s.counter + 1) }) ∧
    ((otherwise { conditions := [{ type := .matchT, condition := r, matchValue := mv,
                                   component := some p, id := "case-1" }],
                  meta := initMeta, counter := 1 } none).2.1
       = (if truthy r then some p else none)) ∧
    ((otherwise { conditions := [{ type := .matchT, condition := r, matchValue := mv,
                                   component := some p, id := "case-1" }],
                  meta := initMeta, counter := 1 } none).1.meta.matchedIndex
       = (if truthy r then 0 else -1)) := by
  refine ⟨?_, ?_, ?_, ?_⟩
  · simp [caseOp, hm, hr, List.getLast?_concat]
  · simp [when, List.getLast?_concat]
  · by_cases htr : truthy r <;>
      simp [otherwise, scanFirst, isSelectable, htr,
        show (ConditionType.matchT == ConditionType.fallbackT) = false from rfl]
  · by_cases htr : truthy r <;>
      simp [otherwise, scanFirst, isSelectable, htr,
        show (ConditionType.matchT == ConditionType.fallbackT) = false from rfl]

/-- A comparator returning the truthy non-boolean value `5`. -/
def c10comp : MatchComparator := fun _ _ => .ok (.num 5)

/-- A chain with an open match context whose comparator returns `5`. -/
def sC10 : ChainState Nat := (matchOp (initState Nat 0) (.num 1) (some c10comp)).1

/-- Witness for `case_raw_when_coerced`: the comparator result `5` is
stored as-is and counts as satisfied by truthiness. -/
theorem case_raw_when_coerced_witness :
    ((caseOp sC10 (.num 2)).1.conditions.getLast? =
       some { type := .matchT, condition := .num 5, matchValue := .num 2,
              component := none, id := "case-" ++ toString (sC10.counter + 1) }) ∧
    ((when sC10 (.str "x")).1.conditions.getLast? =
       some { type := .whenT, condition := .bool (truthy (.str "x")), matchValue := .undef,
              component := none, id := "when-" ++ toString (sC10.counter + 1) }) ∧
    ((otherwise { conditions := [{ type := .matchT, condition := .num 5, matchValue := .num 2,
                                   component := some 7, id := "case-1" }],
                  meta := initMeta, counter := 1 } none).2.1
       = (if truthy (.num 5) then some 7 else none)) ∧
    ((otherwise ({ conditions := [{ type := .matchT, condition := .num 5, matchValue := .num 2,
                                    component := some 7, id := "case-1" }],
                   meta := initMeta, counter := 1 } : ChainState Nat) none).1.meta.matchedIndex
       = (if truthy (.num 5) then 0 else -1)) :=
  case_raw_when_coerced sC10 (.num 2) (.str "x") (.num 5) 7 rfl rfl

/-! ### Claim C9 — only `match` and `reset` touch the match context -/

/-- The API calls that write the match context (subject, comparator,
open flag): exactly `match` and `reset`. -/
def touchesMatchCtx : Op α → Bool
  | .matchOp _ _ => true
  | .reset => true
  | _ => false

/-- The part of the metadata that forms the match context. -/
def matchCtx (s : ChainState α) : JSVal × MatchComparator × Bool :=
  (s.meta.value, s.meta.comparator, s.meta.isInMatchMode)

/-- One step by any call other than `match`/`reset` leaves the match
context untouched (in particular `otherwise` writes only `matchedIndex`). -/
theorem step_matchCtx (s : ChainState α) (op : Op α)
    (h : touchesMatchCtx op = false) :
    matchCtx (step s op).1 = matchCtx s := by
  cases op with
  | matchOp v comp => simp [touchesMatchCtx] at h
  | reset => simp [touchesMatchCtx] at h
  | when c => rfl
  | thenOp p =>
    simp only [step, thenOp, matchCtx]
    split
    · rfl
    · split <;> rfl
  | caseOp v =>
    simp only [step, caseOp, matchCtx]
    split <;> rfl
  | render p =>
    simp only [step, render, matchCtx]
    split
    · rfl
    · split <;> rfl
  | fallback p =>
    simp only [step, fallback, matchCtx]
    split <;> rfl
  | debug => rfl
  | otherwise d =>
    simp only [step, otherwise, matchCtx]
    split
    · rfl
    · split
      · split <;> rfl
      · rfl

/-- Match-context stability over a whole call sequence. -/
theorem runOps_matchCtx (s : ChainState α) (ops : List (Op α))
    (h : ∀ op ∈ ops, touchesMatchCtx op = false) :
    matchCtx (runOps s ops).1 = matchCtx s := by
  induction ops generalizing s with
  | nil => rfl
  | cons op ops ih =>
    have h1 : touchesMatchCtx op = false := h op (List.mem_cons_self op ops)
    have h2 : ∀ o ∈ ops, touchesMatchCtx o = false :=
      fun o ho => h o (List.mem_cons_of_mem op ho)
    calc matchCtx (runOps s (op :: ops)).1
        = matchCtx (runOps (step s op).1 ops).1 := rfl
      _ = matchCtx (step s op).1 := ih (step s op).1 h2
      _ = matchCtx s := step_matchCtx s op h1

/-- C9: the match context (open flag, subject, comparator) is modified
only by `match()` and `reset()`: any sequence of other calls (including
`otherwise`) leaves it intact, so a later `case(v)` still appends a
`match`-kind record evaluated against the originally stored subject and
comparator. -/
theorem match_context_stable (s : ChainState α) (ops : List (Op α)) (mv : JSVal)
    (h : ∀ op ∈ ops, touchesMatchCtx op = false) :
    ((runOps s ops).1.meta.value = s.meta.value ∧
     (runOps s ops).1.meta.comparator = s.meta.comparator ∧
     (runOps s ops).1.meta.isInMatchMode = s.meta.isInMatchMode) ∧
    (s.meta.isInMatchMode = true →
      (caseOp (runOps s ops).1 mv).1.conditions.getLast? =
        some { type := .matchT
               condition := (match s.meta.comparator s.meta.value mv with
                             | .ok r => r
                             | .error _ => .bool false)
               matchValue := mv
               component := none
               id := "case-" ++ toString ((runOps s ops).1.counter + 1) }) := by
  have hc := runOps_matchCtx s ops h
  have hv : (runOps s ops).1.meta.value = s.meta.value :=
    congrArg Prod.fst hc
  have hcm : (runOps s ops).1.meta.comparator = s.meta.comparator :=
    congrArg (fun t => t.2.1) hc
  have hmm : (runOps s ops).1.meta.isInMatchMode = s.meta.isInMatchMode :=
    congrArg (fun t => t.2.2) hc
  refine ⟨⟨hv, hcm, hmm⟩, ?_⟩
  intro hopen
  have hmm' : (runOps s ops).1.meta.isInMatchMode = true := hmm.trans hopen
  simp only [caseOp, hmm', hv, hcm]
  cases hres : s.meta.comparator s.meta.value mv <;>
    simp [List.getLast?_concat]

/-- A chain with an open match context over subject `1` and the default
comparator, used to witness `match_context_stable`. -/
def sC9 : ChainState Nat := (matchOp (initState Nat 0) (.num 1) none).1

/-- A call sequence containing no `match` and no `reset`. -/
def opsC9 : List (Op Nat) := [.when (.bool true), .thenOp (some 5), .otherwise none]

/-- Witness for `match_context_stable` on a concrete chain and sequence. -/
theorem match_context_stable_witness :
    ((runOps sC9 opsC9).1.meta.value = sC9.meta.value ∧
     (runOps sC9 opsC9).1.meta.comparator = sC9.meta.comparator ∧
     (runOps sC9 opsC9).1.meta.isInMatchMode = sC9.meta.isInMatchMode) ∧
    (sC9.meta.isInMatchMode = true →
      (caseOp (runOps sC9 opsC9).1 (.num 1)).1.conditions.getLast? =
        some { type := .matchT
               condition := (match sC9.meta.comparator sC9.meta.value (.num 1) with
                             | .ok r => r
                             | .error _ => .bool false)
               matchValue := .num 1
               component := none
               id := "case-" ++ toString ((runOps sC9 opsC9).1.counter + 1) }) :=
  match_context_stable sC9 opsC9 (.num 1) (by
    intro op hop
    simp only [opsC9, List.mem_cons, List.not_mem_nil, or_false] at hop
    rcases hop with rfl | rfl | rfl <;> rfl)

/-! ### Claim C1 — first-match-wins resolution with fallback and default -/

/-- The resolver's scan loop finds exactly the first record passing
`isSelectable`, returning its index and its component. -/
theorem scanFirst_spec (l : List (ConditionCase α)) :
    (match scanFirst l with
     | some ip =>
       l.findIdx? isSelectable = some ip.1 ∧
       (l.get? ip.1).map (fun c => c.component) = some ip.2
     | none => l.findIdx? isSelectable = none) := by
  induction l with
  | nil => simp [scanFirst]
  | cons c rest ih =>
    by_cases h : isSelectable c
    · simp [scanFirst, h, List.findIdx?_cons]
    · rw [show scanFirst (c :: rest) = (scanFirst rest).map (fun ip => (ip.1 + 1, ip.2))
          from by simp [scanFirst, h]]
      cases hr : scanFirst rest with
      | none =>
        rw [hr] at ih
        simp [List.findIdx?_cons, h, List.findIdx?_succ, ih]
      | some ip =>
        rw [hr] at ih
        obtain ⟨a, ha, hfa⟩ := Option.map_eq_some'.mp ih.2
        refine ⟨?_, ?_⟩
        · simp [List.findIdx?_cons, h, List.findIdx?_succ, ih.1]
        · simp only [List.get?_cons_succ, ha, Option.map_some']
          exact congrArg some hfa

/-- C1: `otherwise(d)` returns the component of the first `when`/`match`
record whose stored condition is truthy and whose component is set,
recording its position in `matchedIndex`; with no such record it leaves
`matchedIndex` at `-1` and returns the fallback record's component when
that is set, else the supplied default. -/
theorem otherwise_resolution (s : ChainState α) (d : Option α) :
    (match s.conditions.findIdx? isSelectable with
     | some i =>
       (otherwise s d).1.meta.matchedIndex = (i : Int) ∧
       (s.conditions.get? i).map (fun c => c.component) = some (otherwise s d).2.1
     | none =>
       (otherwise s d).1.meta.matchedIndex = -1 ∧
       (otherwise s d).2.1 =
         (match s.conditions.find? (fun c => c.type == .fallbackT) with
          | some fb => if fb.component.isSome then fb.component else d
          | none => d)) := by
  have hs := scanFirst_spec (α := α) s.conditions
  cases hsc : scanFirst s.conditions with
  | some ip =>
    rw [hsc] at hs
    rw [hs.1]
    refine ⟨?_, ?_⟩
    · simp [otherwise, hsc]
    · rw [hs.2]
      simp [otherwise, hsc]
  | none =>
    rw [hsc] at hs
    rw [hs]
    refine ⟨?_, ?_⟩
    · simp only [otherwise, hsc]
      cases hf : s.conditions.find? (fun c => c.type == .fallbackT) with
      | some fb =>
        by_cases hc : fb.component.isSome <;> simp [hf, hc]
      | none => simp [hf]
    · simp only [otherwise, hsc]
      cases hf : s.conditions.find? (fun c => c.type == .fallbackT) with
      | some fb =>
        by_cases hc : fb.component.isSome <;> simp [hf, hc]
      | none => simp [hf]

/-! ### Claim C6 — at most one fallback record, overwritten in place -/

/-- Number of fallback-kind records in a branch sequence. -/
def fallbackCount (l : List (ConditionCase α)) : Nat :=
  l.countP (fun c => c.type == .fallbackT)

theorem length_setComponentAt (l : List (ConditionCase α)) (i : Nat) (p : Option α) :
    (setComponentAt l i p).length = l.length := by
  induction l generalizing i with
  | nil => rfl
  | cons c rest ih =>
    cases i with
    | zero => rfl
    | succ j => simp [setComponentAt, ih]

theorem get?_setComponentAt_self (l : List (ConditionCase α)) (i : Nat) (p : Option α) :
    (setComponentAt l i p).get? i = (l.get? i).map (fun c => { c with component := p }) := by
  induction l generalizing i with
  | nil => cases i <;> rfl
  | cons c rest ih =>
    cases i with
    | zero => rfl
    | succ j => simpa [setComponentAt] using ih j

theorem get?_setComponentAt_ne (l : List (ConditionCase α)) (i j : Nat) (p : Option α)
    (h : j ≠ i) : (setComponentAt l i p).get? j = l.get? j := by
  induction l generalizing i j with
  | nil => cases i <;> rfl
  | cons c rest ih =>
    cases i with
    | zero =>
      cases j with
      | zero => exact absurd rfl h
      | succ k => rfl
    | succ i' =>
      cases j with
      | zero => rfl
      | succ k =>
        simpa [setComponentAt] using ih i' k (fun hk => h (by omega))

theorem countP_setComponentAt (l : List (ConditionCase α)) (i : Nat) (p : Option α) :
    (setComponentAt l i p).countP (fun c => c.type == .fallbackT) =
      l.countP (fun c => c.type == .fallbackT) := by
  induction l generalizing i with
  | nil => rfl
  | cons c rest ih =>
    cases i with
    | zero => simp [setComponentAt, List.countP_cons]
    | succ j => simp [setComponentAt, List.countP_cons, ih]

/-- Rewriting a sequence as its front plus its last record. -/
theorem eq_dropLast_concat_of_getLast? (l : List (ConditionCase α)) (c : ConditionCase α)
    (h : l.getLast? = some c) : l = l.dropLast ++ [c] := by
  have hne : l ≠ [] := by
    intro he
    rw [he] at h
    exact Option.noConfusion h
  have := List.dropLast_append_getLast hne
  rw [List.getLast?_eq_getLast l hne] at h
  rw [Option.some_inj.mp h] at this
  exact this.symm

theorem fallbackCount_overwrite_last (l : List (ConditionCase α)) (c : ConditionCase α)
    (p : Option α) (h : l.getLast? = some c) :
    fallbackCount (l.dropLast ++ [{ c with component := p }]) = fallbackCount l := by
  conv_rhs => rw [eq_dropLast_concat_of_getLast? l c h]
  simp [fallbackCount, List.countP_append, List.countP_cons]

/-- Every single API call preserves "at most one fallback record". -/
theorem step_fallbackCount (s : ChainState α) (op : Op α)
    (h : fallbackCount s.conditions ≤ 1) :
    fallbackCount (step s op).1.conditions ≤ 1 := by
  cases op with
  | when c =>
    simpa [step, when, fallbackCount, List.countP_append] using h
  | thenOp p =>
    simp only [step, thenOp]
    split
    · exact h
    · split
      · exact h
      · rename_i heq
        simpa [fallbackCount_overwrite_last _ _ _ heq] using h
  | matchOp v comp => exact h
  | caseOp v =>
    simp only [step, caseOp]
    split
    · exact h
    · simpa [fallbackCount, List.countP_append] using h
  | render p =>
    simp only [step, render]
    split
    · exact h
    · split
      · exact h
      · rename_i heq
        simpa [fallbackCount_overwrite_last _ _ _ heq] using h
  | fallback p =>
    simp only [step, fallback]
    split
    · simpa [fallbackCount, countP_setComponentAt] using h
    · rename_i hnone
      have hz : s.conditions.countP (fun c => c.type == ConditionType.fallbackT) = 0 :=
        List.countP_eq_zero.mpr
          (fun a ha => by simp [List.findIdx?_eq_none_iff.mp hnone a ha])
      simp [fallbackCount, List.countP_append, List.countP_cons, hz]
  | debug => exact h
  | reset => simp [step, reset, fallbackCount]
  | otherwise d =>
    simp only [step, otherwise]
    split
    · exact h
    · split
      · split <;> exact h
      · exact h

/-- The invariant holds in every reachable chain state. -/
theorem reachable_fallbackCount (s : ChainState α) (h : Reachable s) :
    fallbackCount s.conditions ≤ 1 := by
  induction h with
  | init n => simp [initState, fallbackCount]
  | step s op _ ih => exact step_fallbackCount s op ih

/-- C6: every reachable chain state holds at most one fallback-kind
record; when one already exists at position `i`, `fallback(p)` warns once
and overwrites that record's component in place (same position, same
length, every other record and the metadata untouched); when none exists
it appends a new fallback record at the end. -/
theorem fallback_unique (s : ChainState α) (p : Option α) :
    (Reachable s → fallbackCount s.conditions ≤ 1) ∧
    (match s.conditions.findIdx? (fun c => c.type == .fallbackT) with
     | some i =>
       (fallback s p).2 = [.warnMultipleFallback] ∧
       (fallback s p).1.meta = s.meta ∧
       (fallback s p).1.counter = s.counter ∧
       (fallback s p).1.conditions.length = s.conditions.length ∧
       (fallback s p).1.conditions.get? i =
         (s.conditions.get? i).map (fun c => { c with component := p }) ∧
       (∀ j, j ≠ i → (fallback s p).1.conditions.get? j = s.conditions.get? j)
     | none =>
       (fallback s p).2 = [] ∧
       (fallback s p).1 =
         { s with
             conditions := s.conditions ++
               [{ type := .fallbackT, condition := .undef, matchValue := .undef,
                  component := p, id := "fallback-" ++ toString (s.counter + 1) }]
             counter := s.counter + 1 }) := by
  refine ⟨reachable_fallbackCount s, ?_⟩
  cases hf : s.conditions.findIdx? (fun c => c.type == .fallbackT) with
  | some i =>
    refine ⟨?_, ?_, ?_, ?_, ?_, ?_⟩
    · simp [fallback, hf]
    · simp [fallback, hf]
    · simp [fallback, hf]
    · simp [fallback, hf, length_setComponentAt]
    · simp only [fallback, hf]
      exact get?_setComponentAt_self s.conditions i p
    · intro j hj
      simp only [fallback, hf]
      exact get?_setComponentAt_ne s.conditions i j p hj
  | none =>
    exact ⟨by simp [fallback, hf], by simp [fallback, hf]⟩

/-- Witness for `fallback_unique`: a fresh handle is reachable and holds
no fallback record, and `fallback(5)` on it appends one. -/
theorem fallback_unique_witness :
    fallbackCount (initState Nat 0).conditions ≤ 1 ∧
    ((fallback (initState Nat 0) (some 5)).2 = [] ∧
     (fallback (initState Nat 0) (some 5)).1 =
       { initState Nat 0 with
           conditions := (initState Nat 0).conditions ++
             [{ type := .fallbackT, condition := .undef, matchValue := .undef,
                component := some 5,
                id := "fallback-" ++ toString ((initState Nat 0).counter + 1) }]
           counter := (initState Nat 0).counter + 1 }) :=
  ⟨(fallback_unique (initState Nat 0) (some 5)).1 (Reachable.init 0),
   (fallback_unique (initState Nat 0) (some (5 : Nat))).2⟩

/-! ### Claim C7 — `reset` behaves like a brand-new handle -/

/-- C7: `reset()` restores exactly the state of a freshly instantiated
handle (with the process-global id counter where it stands): the branch
sequence is empty, `matchedIndex` is `-1`, `hasMatched()` is false, the
match context is closed with the default comparator, no diagnostics are
emitted, and every subsequent call sequence yields the same states,
returned payloads, diagnostics and `getConditions` contents as on a
fresh handle. -/
theorem reset_like_fresh (s : ChainState α) (ops : List (Op α)) :
    (reset s).1 = initState α s.counter ∧
    (reset s).1.conditions = [] ∧
    getMatchedIndex (reset s).1 = -1 ∧
    hasMatched (reset s).1 = false ∧
    (reset s).1.meta.isInMatchMode = false ∧
    (reset s).1.meta.comparator = defaultComparatorFn ∧
    (reset s).2 = [] ∧
    runOps (reset s).1 ops = runOps (initState α s.counter) ops ∧
    getConditions (reset s).1 = getConditions (initState α s.counter) :=
  ⟨rfl, rfl, rfl, rfl, rfl, rfl, rfl, rfl, rfl⟩

end UseCondition
